import Mathlib

/-!
Verification of the county diabetes-risk dashboard core (src/app.py).

The table is modelled as a list of rows; each numeric cell is `Option ℚ`
(`none` models a pandas missing value / NaN), since the interesting control
flow only distinguishes present numeric values from missing ones.  Column
presence (pandas `"X" in data.columns`) is modelled by boolean flags on the
table.  Fallible Python operations (`.iloc[0]` on an empty frame,
`int(nan)`) are modelled with `Except`.  Python `str.lower` is modelled by
an ASCII character map, and Python string comparison by code-point
lexicographic order, which agree with CPython on the ASCII county names the
program handles.
-/

namespace App

/-- One row of the loaded table.  Field names follow the CSV column names
used in src/app.py. -/
structure Row where
  County : String
  Diabetes : Option ℚ
  Obesity : Option ℚ
  Uninsured : Option ℚ
  Median_Income : Option ℚ
  Risk_Score : Option ℚ
  Risk_Rank : Option ℚ
  Risk_Percentile : Option ℚ
  Risk_Category : Option String
  PM25 : Option ℚ
deriving DecidableEq

/-- The table: rows plus presence flags for the columns whose existence the
script tests with `in data.columns`. -/
structure Table where
  rows : List Row
  hasDiabetes : Bool
  hasRiskScore : Bool
  hasRiskPercentile : Bool
  hasRiskCategory : Bool
deriving DecidableEq

/-- Python `str.lower`, restricted to the ASCII mapping `Char.toLower`. -/
def pyLower (s : String) : String :=
  String.mk (s.data.map Char.toLower)

/-- Code-point lexicographic `≤` on char lists (Python string comparison). -/
def charListLe : List Char → List Char → Bool
  | [], _ => true
  | _ :: _, [] => false
  | a :: as, b :: bs => if a = b then charListLe as bs else decide (a < b)

/-- Python `s <= t` on strings. -/
def strLeB (a b : String) : Bool :=
  charListLe a.data b.data

/-- Bool prefix test on char lists. -/
def isPrefixB : List Char → List Char → Bool
  | [], _ => true
  | _ :: _, [] => false
  | a :: as, b :: bs => a == b && isPrefixB as bs

/-- Bool contiguous-substring test on char lists (Python `needle in hay`). -/
def isInfixB (needle : List Char) : List Char → Bool
  | [] => needle.isEmpty
  | b :: bs => isPrefixB needle (b :: bs) || isInfixB needle bs

/-- Python `needle in hay` for strings. -/
def substrB (needle hay : String) : Bool :=
  isInfixB needle.data hay.data

/-- Is this the statewide aggregate row?  (`County.lower() == "texas"`.) -/
def isTexas (r : Row) : Bool :=
  pyLower r.County == "texas"

/-- A whitespace character, as Python `str.strip` sees it. -/
def isSpaceChar (c : Char) : Bool :=
  c == ' ' || c == '\t' || c == '\n' || c == '\r' || c == '\x0b' || c == '\x0c'

/-- Python `str.strip`: drop whitespace from both ends. -/
def pyStrip (s : String) : String :=
  String.mk (((s.data.dropWhile isSpaceChar).reverse.dropWhile isSpaceChar).reverse)

/-- Line 25: `data["County"] = data["County"].astype(str).str.strip()`. -/
def trimCounties (rows : List Row) : List Row :=
  rows.map fun r => { r with County := pyStrip r.County }

/-- Lines 28-30: sorted county list, duplicates removed, statewide row
excluded case-insensitively.  (`unique()` keeps the first occurrence and
`dedup` the last, which is irrelevant after sorting.) -/
def counties (rows : List Row) : List String :=
  List.insertionSort (fun a b => strLeB a b = true)
    (((rows.map Row.County).dedup).filter fun c => !(pyLower c == "texas"))

/-- The `Risk_Score` values that line 38 ranks: non-statewide rows, missing
scores skipped (pandas `rank` ignores NaN and excludes it from the count). -/
def scoresFor (rows : List Row) : List ℚ :=
  (rows.filter fun r => !isTexas r).filterMap Row.Risk_Score

/-- Pandas `rank(pct=True)` with the default `average` method, at value `s`:
(number of smaller values + average position among the ties) / count. -/
def rankPct (scores : List ℚ) (s : ℚ) : ℚ :=
  (((scores.filter fun y => decide (y < s)).length : ℚ) +
      (((scores.filter fun y => decide (y = s)).length : ℚ) + 1) / 2) /
    (scores.length : ℚ)

/-- Lines 36-43 applied to one row: non-statewide rows receive
`rank(pct=True) * 100` of their score; the left-merge leaves the statewide
row (absent from `tmp_counties`) with a missing percentile. -/
def derivePercentileRow (scores : List ℚ) (r : Row) : Row :=
  if isTexas r then { r with Risk_Percentile := none }
  else { r with Risk_Percentile := r.Risk_Score.map fun s => rankPct scores s * 100 }

/-- Lines 34-43: derive `Risk_Percentile` from `Risk_Score` when the former
column is absent and the latter present. -/
def derivePercentileStep (t : Table) : Table :=
  if t.hasRiskPercentile = false ∧ t.hasRiskScore = true then
    { t with rows := t.rows.map (derivePercentileRow (scoresFor t.rows)),
             hasRiskPercentile := true }
  else t

/-- Lines 46-51: `pd.cut(p, bins=[0, 33.33, 66.66, 100], labels=[...],
include_lowest=True)`.  `pd.cut` is right-closed, so the intervals are
[0, 33.33], (33.33, 66.66], (66.66, 100]; values outside [0, 100] and NaN
give NaN. -/
def bucket : Option ℚ → Option String
  | none => none
  | some q =>
    if 0 ≤ q ∧ q ≤ 33.33 then some "Low"
    else if 33.33 < q ∧ q ≤ 66.66 then some "Moderate"
    else if 66.66 < q ∧ q ≤ 100 then some "High"
    else none

/-- Category assignment for one row. -/
def deriveCategoryRow (r : Row) : Row :=
  { r with Risk_Category := bucket r.Risk_Percentile }

/-- Lines 45-51: derive `Risk_Category` when that column is absent and
`Risk_Percentile` is present. -/
def deriveCategoryStep (t : Table) : Table :=
  if t.hasRiskCategory = false ∧ t.hasRiskPercentile = true then
    { t with rows := t.rows.map deriveCategoryRow, hasRiskCategory := true }
  else t

/-- Lines 25, 34-51: the whole load-time normalization. -/
def normalize (t : Table) : Table :=
  deriveCategoryStep (derivePercentileStep { t with rows := trimCounties t.rows })

/-- Lines 53-57: the Texas benchmark.  Outer `none` = `texas_diabetes is
None` (no statewide row, or no `Diabetes` column); inner `none` = the
statewide row's `Diabetes` cell is NaN. -/
def texas_diabetes (t : Table) : Option (Option ℚ) :=
  match t.rows.find? isTexas with
  | some r => if t.hasDiabetes then some r.Diabetes else none
  | none => none

/-- Lines 69-71: `data.loc[data["County"] == county].iloc[0]`.  `.iloc[0]`
raises `IndexError` on an empty selection. -/
def county_snapshot (rows : List Row) (county : String) : Except String Row :=
  match rows.find? (fun r => r.County == county) with
  | some r => Except.ok r
  | none => Except.error "IndexError"

/-- Lines 61-67. -/
def find_county_from_text (cs : List String) (user_text : String) : Option String :=
  let msg := pyLower user_text
  cs.find? fun c => substrB (pyLower c) msg

/-- Python float `>` (False whenever either side is NaN). -/
def pyGt : Option ℚ → Option ℚ → Bool
  | some a, some b => decide (b < a)
  | _, _ => false

/-- int() of a truncated rational; `int(nan)` raises ValueError. -/
def pyInt : Option ℚ → Except String ℤ
  | none => Except.error "ValueError"
  | some q => Except.ok (if 0 ≤ q then ⌊q⌋ else -⌊-q⌋)

/-- Round half to even (ties in Python fixed-point formatting). -/
def rhe (q : ℚ) : ℤ :=
  if q - ⌊q⌋ < 1/2 then ⌊q⌋
  else if 1/2 < q - ⌊q⌋ then ⌊q⌋ + 1
  else if ⌊q⌋ % 2 = 0 then ⌊q⌋ else ⌊q⌋ + 1

/-- Left-pad with zeros to width `w`. -/
def padZeros (w : ℕ) (s : String) : String :=
  String.mk (List.replicate (w - s.data.length) '0') ++ s

/-- Insert `,` after every group of three digits, input reversed. -/
def groupRev : List Char → ℕ → List Char
  | [], _ => []
  | c :: cs, k => if k = 3 then ',' :: c :: groupRev cs 1 else c :: groupRev cs (k + 1)

/-- Decimal digits of `n` with thousands separators. -/
def commaNat (n : ℕ) : String :=
  String.mk (groupRev (toString n).data.reverse 0).reverse

/-- Python `f"{q:.{decs}f}"` on a finite value (decimal rounding). -/
def fmtFixed (decs : ℕ) (q : ℚ) : String :=
  let scaled := rhe (q * (10 : ℚ) ^ decs)
  let sign := if scaled < 0 then "-" else ""
  let n := scaled.natAbs
  if decs = 0 then sign ++ toString n
  else sign ++ toString (n / 10 ^ decs) ++ "." ++ padZeros decs (toString (n % 10 ^ decs))

/-- `f"{x:,.0f}"`: "nan" on a missing value, else rounded with separators. -/
def fmtComma0 : Option ℚ → String
  | none => "nan"
  | some q => (if rhe q < 0 then "-" else "") ++ commaNat (rhe q).natAbs

/-- `f"{x:.2f}"`. -/
def fmtFloat2 : Option ℚ → String
  | none => "nan"
  | some q => fmtFixed 2 q

/-- `f"{x:.1f}"`. -/
def fmtFloat1 : Option ℚ → String
  | none => "nan"
  | some q => fmtFixed 1 q

/-- Plain f-string interpolation of a float cell; digit rendering of the
finite case is abstracted by `toString`. -/
def fmtPlain : Option ℚ → String
  | none => "nan"
  | some q => toString q

/-- Line 80/82 benchmark sentence, parameterized by the comparison word. -/
def benchSentence (word : String) (tdv : Option ℚ) : String :=
  "This county\u2019s diabetes prevalence is **" ++ word ++
    "** the Texas overall value (**" ++ fmtFloat1 tdv ++ "%**)."

/-- Lines 78-82: the benchmark-comparison sentence, emitted only when the
benchmark exists and the row's `Diabetes` is not NaN. -/
def benchPart (td : Option (Option ℚ)) (row : Row) : List String :=
  match td, row.Diabetes with
  | some tdv, some d =>
    if pyGt (some d) tdv then [benchSentence "above" tdv] else [benchSentence "below" tdv]
  | _, _ => []

/-- Lines 85-86: the composite-label sentence. -/
def catPart (row : Row) : List String :=
  match row.Risk_Category with
  | some c => ["Overall, the composite risk level is **" ++ c ++ "**."]
  | none => []

/-- Lines 89-95: the drivers list, built by three sequential guarded
appends exactly as in the source. -/
def driversFor (row : Row) : List String :=
  let drivers : List String := []
  let drivers := match row.Obesity with
    | some v => if 35 ≤ v then drivers ++ ["higher obesity"] else drivers
    | none => drivers
  let drivers := match row.Uninsured with
    | some v => if 15 ≤ v then drivers ++ ["higher uninsured rate"] else drivers
    | none => drivers
  let drivers := match row.Median_Income with
    | some v => if v ≤ 60000 then drivers ++ ["lower median income"] else drivers
    | none => drivers
  drivers

/-- Line 98's sentence. -/
def driverSentence (ds : List String) : String :=
  "Key drivers in this profile include " ++ String.intercalate ", " ds ++ "."

/-- Lines 97-98. -/
def driversPart (row : Row) : List String :=
  let ds := driversFor row
  if ds = [] then [] else [driverSentence ds]

/-- Lines 101-102: the static PM2.5 note. -/
def pm25Sentence : String :=
  "PM2.5 is included for context; in this dataset it showed a weaker direct county-level correlation with diabetes than obesity, income, and uninsured rate."

/-- Lines 101-102. -/
def pm25Part (row : Row) : List String :=
  match row.PM25 with
  | some _ => [pm25Sentence]
  | none => []

/-- The ordered sentence list built by `risk_explanation`. -/
def explanationParts (td : Option (Option ℚ)) (row : Row) : List String :=
  benchPart td row ++ catPart row ++ driversPart row ++ pm25Part row

/-- Lines 73-104. -/
def risk_explanation (td : Option (Option ℚ)) (row : Row) : String :=
  let parts := explanationParts td row
  if parts = [] then "Ask about another county or explore the Rankings tab."
  else String.intercalate " " parts

/-- Line 127's fixed reply. -/
def notFoundText : String :=
  "I couldn\x27t find that county. Try asking about a Texas county!"

/-- Lines 115-124: the f-string body, given the already-converted rank. -/
def statsText (r : Row) (rank : ℤ) : String :=
  "\nHere are the health stats for " ++ r.County ++ ":\n\n• Diabetes rate: " ++
    fmtPlain r.Diabetes ++ "%\n• Obesity rate: " ++ fmtPlain r.Obesity ++
    "%\n• Uninsured: " ++ fmtPlain r.Uninsured ++ "%\n• Median Income: $" ++
    fmtComma0 r.Median_Income ++ "\n• Composite Risk Score: " ++
    fmtFloat2 r.Risk_Score ++ "\n• Risk Rank (TX counties): " ++ toString rank ++ "\n"

/-- Lines 113-125: build the stats reply; `int(row['Risk_Rank'])` raises on
a missing rank, which aborts the whole f-string. -/
def statsResponse (r : Row) : Except String String :=
  match pyInt r.Risk_Rank with
  | Except.error e => Except.error e
  | Except.ok rank => Except.ok (statsText r rank)

/-- Lines 108-127: the chatbot scans `data['County']` in table order (the
statewide row included) and answers with the first row whose lower-cased
name occurs in the message. -/
def chatbot (rows : List Row) (message : String) : Except String String :=
  let msg := pyLower message
  match rows.find? (fun r => substrB (pyLower r.County) msg) with
  | some r => statsResponse r
  | none => Except.ok notFoundText

/-! ### String-order bridge: `strLeB` agrees with the library order -/

theorem charListLe_iff : ∀ x y : List Char, charListLe x y = true ↔ ¬ List.Lex (· < ·) y x
  | [], y => by
    simp only [charListLe]
    exact (iff_true_intro (List.Lex.not_nil_right _ y)).symm
  | a :: as, [] => by
    simp only [charListLe]
    constructor
    · intro h; cases h
    · intro h; exact absurd List.Lex.nil h
  | a :: as, b :: bs => by
    by_cases hab : a = b
    · subst hab
      rw [charListLe, if_pos rfl, charListLe_iff as bs]
      constructor
      · intro h hlex
        exact h (List.Lex.cons_iff.mp hlex)
      · intro h hlex
        exact h (List.Lex.cons hlex)
    · rw [charListLe, if_neg hab]
      rcases lt_trichotomy a b with hlt | heq | hgt
      · apply iff_of_true (decide_eq_true hlt)
        intro hlex
        cases hlex with
        | rel h => exact absurd hlt (lt_asymm h)
        | cons h => exact hab rfl
      · exact absurd heq hab
      · apply iff_of_false
        · simp only [decide_eq_true_eq]
          exact fun h => lt_asymm h hgt
        · intro h; exact h (List.Lex.rel hgt)

theorem strLeB_iff (a b : String) : strLeB a b = true ↔ a ≤ b := by
  rw [strLeB, charListLe_iff, String.le_iff_toList_le]
  show ¬ List.Lex (· < ·) b.data a.data ↔ a.data ≤ b.data
  rw [← not_lt]
  rfl

instance : IsTotal String fun a b => strLeB a b = true :=
  ⟨fun a b => by
    rcases le_total a b with h | h
    · exact Or.inl ((strLeB_iff a b).mpr h)
    · exact Or.inr ((strLeB_iff b a).mpr h)⟩

instance : IsTrans String fun a b => strLeB a b = true :=
  ⟨fun a b c hab hbc =>
    (strLeB_iff a c).mpr (le_trans ((strLeB_iff a b).mp hab) ((strLeB_iff b c).mp hbc))⟩

/-! ### Facts about `counties` -/

theorem counties_sorted (rows : List Row) : (counties rows).Sorted (· ≤ ·) := by
  have h := List.sorted_insertionSort (fun a b => strLeB a b = true)
    (((rows.map Row.County).dedup).filter fun c => !(pyLower c == "texas"))
  exact h.imp fun hab => (strLeB_iff _ _).mp hab

theorem counties_perm (rows : List Row) :
    List.Perm (counties rows)
      (((rows.map Row.County).dedup).filter fun c => !(pyLower c == "texas")) :=
  List.perm_insertionSort _ _

theorem counties_nodup (rows : List Row) : (counties rows).Nodup :=
  (counties_perm rows).nodup_iff.mpr (((rows.map Row.County).nodup_dedup).filter _)

theorem counties_no_texas (rows : List Row) :
    ∀ c ∈ counties rows, pyLower c ≠ "texas" := by
  intro c hc
  have hmem := (counties_perm rows).mem_iff.mp hc
  have := List.mem_filter.mp hmem
  simpa using this.2

theorem counties_sub (rows : List Row) :
    ∀ c ∈ counties rows, ∃ r ∈ rows, r.County = c := by
  intro c hc
  have hmem := (counties_perm rows).mem_iff.mp hc
  have h1 : c ∈ (rows.map Row.County).dedup := List.mem_of_mem_filter hmem
  have h2 : c ∈ rows.map Row.County := List.mem_dedup.mp h1
  rcases List.mem_map.mp h2 with ⟨r, hr, hrc⟩
  exact ⟨r, hr, hrc⟩

theorem counties_pairwise_lt (rows : List Row) : (counties rows).Pairwise (· < ·) := by
  have h := List.Pairwise.and (counties_sorted rows) (counties_nodup rows)
  exact h.imp fun hab => lt_of_le_of_ne hab.1 hab.2

/-! ### First-match and string-head helper lemmas -/

theorem find?_first_of_pairwise {p : String → Bool} :
    ∀ l : List String, l.Pairwise (· < ·) → ∀ name, name ∈ l → p name = true →
      (∀ c ∈ l, p c = true → name ≤ c) → l.find? p = some name := by
  intro l
  induction l with
  | nil => intro _ name hmem; exact absurd hmem (List.not_mem_nil name)
  | cons c tl ih =>
    intro hpw name hmem hp hmin
    rcases List.pairwise_cons.mp hpw with ⟨hlt, htl⟩
    by_cases hpc : p c = true
    · have hnc : name ≤ c := hmin c (List.mem_cons_self _ _) hpc
      have heq : name = c := by
        rcases List.mem_cons.mp hmem with h | h
        · exact h
        · exact absurd (hlt name h) (not_lt.mpr hnc)
      subst heq
      simp [List.find?, hp]
    · have hne : name ≠ c := fun he => hpc (he ▸ hp)
      have hmt : name ∈ tl := by
        rcases List.mem_cons.mp hmem with h | h
        · exact absurd h hne
        · exact h
      have hstep : List.find? p (c :: tl) = List.find? p tl := by
        simp [List.find?, Bool.eq_false_iff.mpr hpc]
      rw [hstep]
      exact ih htl name hmt hp fun d hd hpd => hmin d (List.mem_cons_of_mem _ hd) hpd

theorem data_head?_append (p x : String) (c : Char) (hc : p.data.head? = some c) :
    (p ++ x).data.head? = some c := by
  rw [String.data_append, List.head?_append, hc]
  rfl

theorem ne_of_data_head {a b : String} {ca cb : Char} (ha : a.data.head? = some ca)
    (hb : b.data.head? = some cb) (hne : ca ≠ cb) : a ≠ b := by
  intro he
  subst he
  rw [ha] at hb
  exact hne (Option.some.inj hb)

/-! ### Counting lemmas behind the percentile rank -/

theorem countLt_add_countEq_le (l : List ℚ) {b a : ℚ} (hab : b < a) :
    (l.filter fun y => decide (y < b)).length + (l.filter fun y => decide (y = b)).length ≤
      (l.filter fun y => decide (y < a)).length := by
  induction l with
  | nil => simp
  | cons x t ih =>
    have e1 : (List.filter (fun y => decide (y < b)) (x :: t)).length =
        (if x < b then 1 else 0) + (List.filter (fun y => decide (y < b)) t).length := by
      by_cases h : x < b <;> simp [List.filter_cons, h] <;> omega
    have e2 : (List.filter (fun y => decide (y = b)) (x :: t)).length =
        (if x = b then 1 else 0) + (List.filter (fun y => decide (y = b)) t).length := by
      by_cases h : x = b <;> simp [List.filter_cons, h] <;> omega
    have e3 : (List.filter (fun y => decide (y < a)) (x :: t)).length =
        (if x < a then 1 else 0) + (List.filter (fun y => decide (y < a)) t).length := by
      by_cases h : x < a <;> simp [List.filter_cons, h] <;> omega
    rw [e1, e2, e3]
    by_cases h1 : x < b
    · have h2 : ¬ x = b := ne_of_lt h1
      have h3 : x < a := lt_trans h1 hab
      rw [if_pos h1, if_neg h2, if_pos h3]
      omega
    · by_cases h2 : x = b
      · have h3 : x < a := h2 ▸ hab
        rw [if_neg h1, if_pos h2, if_pos h3]
        omega
      · by_cases h3 : x < a
        · rw [if_neg h1, if_neg h2, if_pos h3]
          omega
        · rw [if_neg h1, if_neg h2, if_neg h3]
          omega

theorem countLt_add_countEq_le_length (l : List ℚ) (s : ℚ) :
    (l.filter fun y => decide (y < s)).length + (l.filter fun y => decide (y = s)).length ≤
      l.length := by
  induction l with
  | nil => simp
  | cons x t ih =>
    have e1 : (List.filter (fun y => decide (y < s)) (x :: t)).length =
        (if x < s then 1 else 0) + (List.filter (fun y => decide (y < s)) t).length := by
      by_cases h : x < s <;> simp [List.filter_cons, h] <;> omega
    have e2 : (List.filter (fun y => decide (y = s)) (x :: t)).length =
        (if x = s then 1 else 0) + (List.filter (fun y => decide (y = s)) t).length := by
      by_cases h : x = s <;> simp [List.filter_cons, h] <;> omega
    rw [e1, e2, List.length_cons]
    by_cases h1 : x < s
    · have h2 : ¬ x = s := ne_of_lt h1
      rw [if_pos h1, if_neg h2]
      omega
    · by_cases h2 : x = s
      · rw [if_neg h1, if_pos h2]
        omega
      · rw [if_neg h1, if_neg h2]
        omega

theorem one_le_countEq {l : List ℚ} {s : ℚ} (h : s ∈ l) :
    1 ≤ (l.filter fun y => decide (y = s)).length := by
  have hmem : s ∈ l.filter fun y => decide (y = s) :=
    List.mem_filter.mpr ⟨h, by simp⟩
  exact List.length_pos.mpr (List.ne_nil_of_mem hmem)

theorem length_pos_of_mem_q {l : List ℚ} {s : ℚ} (h : s ∈ l) : (0 : ℚ) < (l.length : ℚ) := by
  have := List.length_pos.mpr (List.ne_nil_of_mem h)
  exact_mod_cast this

/-! ### Range and monotonicity of `rankPct` -/

theorem rankPct_pos {scores : List ℚ} {s : ℚ} (h : s ∈ scores) : 0 < rankPct scores s := by
  unfold rankPct
  apply div_pos _ (length_pos_of_mem_q h)
  have h1 : (1 : ℚ) ≤ ((scores.filter fun y => decide (y = s)).length : ℚ) := by
    exact_mod_cast one_le_countEq h
  have h2 : (0 : ℚ) ≤ ((scores.filter fun y => decide (y < s)).length : ℚ) :=
    Nat.cast_nonneg _
  linarith

theorem rankPct_le_one {scores : List ℚ} {s : ℚ} (h : s ∈ scores) : rankPct scores s ≤ 1 := by
  unfold rankPct
  rw [div_le_one (length_pos_of_mem_q h)]
  have h1 : (1 : ℚ) ≤ ((scores.filter fun y => decide (y = s)).length : ℚ) := by
    exact_mod_cast one_le_countEq h
  have h2 : ((scores.filter fun y => decide (y < s)).length : ℚ) +
      ((scores.filter fun y => decide (y = s)).length : ℚ) ≤ (scores.length : ℚ) := by
    exact_mod_cast countLt_add_countEq_le_length scores s
  linarith

theorem rankPct_mono {scores : List ℚ} {sa sb : ℚ} (hb : sb ∈ scores) (hab : sb < sa) :
    rankPct scores sb ≤ rankPct scores sa := by
  unfold rankPct
  rw [div_le_div_iff_of_pos_right (length_pos_of_mem_q hb)]
  have hcount : ((scores.filter fun y => decide (y < sb)).length : ℚ) +
      ((scores.filter fun y => decide (y = sb)).length : ℚ) ≤
      ((scores.filter fun y => decide (y < sa)).length : ℚ) := by
    exact_mod_cast countLt_add_countEq_le scores hab
  have h1 : (0 : ℚ) ≤ ((scores.filter fun y => decide (y = sb)).length : ℚ) :=
    Nat.cast_nonneg _
  have h2 : (0 : ℚ) ≤ ((scores.filter fun y => decide (y = sa)).length : ℚ) :=
    Nat.cast_nonneg _
  linarith

theorem mem_scoresFor {rows : List Row} {r : Row} (hr : r ∈ rows) (ht : isTexas r = false)
    {s : ℚ} (hs : r.Risk_Score = some s) : s ∈ scoresFor rows := by
  unfold scoresFor
  exact List.mem_filterMap.mpr ⟨r, List.mem_filter.mpr ⟨hr, by simp [ht]⟩, hs⟩

/-! ### Positional first-match lemma and sentence-head lemmas -/

theorem find?_eq_get_of_first {α : Type} (p : α → Bool) :
    ∀ (l : List α) (i : ℕ) (hi : i < l.length),
      (∀ j (hj : j < l.length), j < i → p (l.get ⟨j, hj⟩) = false) →
      p (l.get ⟨i, hi⟩) = true → l.find? p = some (l.get ⟨i, hi⟩) := by
  intro l
  induction l with
  | nil => intro i hi; exact absurd hi (Nat.not_lt_zero i)
  | cons x t ih =>
    intro i hi hbef hp
    cases i with
    | zero =>
      have hpx : p x = true := hp
      simp [List.find?, hpx]
    | succ n =>
      have hpx : p x = false := hbef 0 (Nat.succ_pos _) (Nat.succ_pos n)
      have hstep : List.find? p (x :: t) = List.find? p t := by
        simp [List.find?, hpx]
      rw [hstep]
      have hn : n < t.length := Nat.lt_of_succ_lt_succ hi
      exact ih n hn (fun j hj hji => hbef (j + 1) (Nat.succ_lt_succ hj) (Nat.succ_lt_succ hji)) hp

theorem count_eq_zero_of_heads {l : List String} {x : String} {cx : Char}
    (hx : x.data.head? = some cx)
    (hl : ∀ s ∈ l, ∃ cs, s.data.head? = some cs ∧ cs ≠ cx) : l.count x = 0 :=
  List.count_eq_zero.mpr fun hmem => by
    rcases hl x hmem with ⟨cs, hcs, hne⟩
    rw [hx] at hcs
    exact hne (Option.some.inj hcs.symm)

theorem benchSentence_head (word : String) (tdv : Option ℚ) :
    (benchSentence word tdv).data.head? = some 'T' := by
  unfold benchSentence
  repeat apply data_head?_append
  rfl

theorem benchPart_none (row : Row) : benchPart none row = [] := rfl

theorem benchPart_no_diabetes (tdv : Option ℚ) (row : Row) (hd : row.Diabetes = none) :
    benchPart (some tdv) row = [] := by
  unfold benchPart
  rw [hd]

theorem benchPart_some (tdv : Option ℚ) (row : Row) (d : ℚ) (hd : row.Diabetes = some d) :
    benchPart (some tdv) row =
      if pyGt (some d) tdv then [benchSentence "above" tdv] else [benchSentence "below" tdv] := by
  unfold benchPart
  rw [hd]

theorem benchPart_head (td : Option (Option ℚ)) (row : Row) :
    ∀ s ∈ benchPart td row, s.data.head? = some 'T' := by
  intro s hs
  rcases td with _ | tdv
  · rw [benchPart_none] at hs
    exact absurd hs (List.not_mem_nil s)
  · rcases hd : row.Diabetes with _ | d
    · rw [benchPart_no_diabetes tdv row hd] at hs
      exact absurd hs (List.not_mem_nil s)
    · rw [benchPart_some tdv row d hd] at hs
      split at hs
      · rw [List.mem_singleton.mp hs]
        exact benchSentence_head _ _
      · rw [List.mem_singleton.mp hs]
        exact benchSentence_head _ _

theorem catPart_head (row : Row) : ∀ s ∈ catPart row, s.data.head? = some 'O' := by
  intro s hs
  unfold catPart at hs
  rcases hc : row.Risk_Category with _ | c
  · rw [hc] at hs
    exact absurd hs (List.not_mem_nil s)
  · rw [hc] at hs
    rw [List.mem_singleton.mp hs]
    repeat apply data_head?_append
    rfl

theorem pm25Part_head (row : Row) : ∀ s ∈ pm25Part row, s.data.head? = some 'P' := by
  intro s hs
  unfold pm25Part at hs
  rcases hp : row.PM25 with _ | v
  · rw [hp] at hs
    exact absurd hs (List.not_mem_nil s)
  · rw [hp] at hs
    rw [List.mem_singleton.mp hs]
    rfl

theorem driverSentence_head (ds : List String) :
    (driverSentence ds).data.head? = some 'K' := by
  unfold driverSentence
  repeat apply data_head?_append
  rfl

theorem key_tail_head (tail : String) :
    ("Key drivers in this profile include " ++ tail).data.head? = some 'K' := by
  apply data_head?_append
  rfl

theorem statsText_head (r : Row) (rank : ℤ) : (statsText r rank).data.head? = some '\n' := by
  unfold statsText
  repeat apply data_head?_append
  rfl

/-! ### Sample data used by witnesses and counterexamples -/

/-- Statewide benchmark row of the sample table. -/
def rTexas : Row :=
  ⟨"Texas", some 11, none, none, none, none, some 0, none, none, none⟩

/-- A high-risk sample county row. -/
def rHarris : Row :=
  ⟨"Harris", some 14, some 36, some 18, some 55000, some 80, some 1, none, none, none⟩

/-- A lower-risk sample county row. -/
def rTravis : Row :=
  ⟨"Travis", some 9, some 20, some 10, some 90000, some 60, some 2, none, none, none⟩

/-- A row whose `Risk_Rank` cell is missing. -/
def rowNoRank : Row :=
  ⟨"Bexar", some 12, some 30, some 10, some 50000, some 70, none, none, none, none⟩

/-- Sample table rows: statewide row first, then two counties. -/
def sampleRows : List Row := [rTexas, rHarris, rTravis]

/-- Rows whose county names nest: "Ann" is a prefix of "Anna". -/
def rAnn : Row := ⟨"Ann", some 1, none, none, none, none, some 3, none, none, none⟩

/-- See `rAnn`. -/
def rAnna : Row := ⟨"Anna", some 2, none, none, none, none, some 4, none, none, none⟩

/-- Table with nested county names. -/
def annRows : List Row := [rAnn, rAnna]

/-- Reduction of `bucket` on a present value. -/
theorem bucket_some (q : ℚ) :
    bucket (some q) =
      if 0 ≤ q ∧ q ≤ 33.33 then some "Low"
      else if 33.33 < q ∧ q ≤ 66.66 then some "Moderate"
      else if 66.66 < q ∧ q ≤ 100 then some "High"
      else none := rfl

/-! ### C1: risk-category bucket boundaries -/

/-- A one-row table whose `Risk_Percentile` is exactly 33.33 and whose
`Risk_Category` column is absent. -/
def rowPct3333 : Row :=
  ⟨"Bell", none, none, none, none, none, none, some 33.33, none, none⟩

/-- See `rowPct3333`. -/
def tPct3333 : Table :=
  { rows := [rowPct3333], hasDiabetes := false, hasRiskScore := false,
    hasRiskPercentile := true, hasRiskCategory := false }

/-- C1 counterexample: with `Risk_Category` absent and `Risk_Percentile`
present, a record whose percentile is exactly 33.33 is bucketed as "Low",
not "Moderate" — `pd.cut` closes bins on the right, so the claimed bucket
[33.33, 66.66) does not match the code. -/
theorem c1_bucket_33_33_counterexample :
    (deriveCategoryStep tPct3333).rows.map Row.Risk_Category = [some "Low"] ∧
    (some "Low" : Option String) ≠ some "Moderate" := by
  constructor
  · have hstep : (deriveCategoryStep tPct3333).rows = [deriveCategoryRow rowPct3333] := by
      unfold deriveCategoryStep
      rw [if_pos ⟨rfl, rfl⟩]
      rfl
    rw [hstep]
    have hcat : bucket (some (33.33 : ℚ)) = some "Low" := by
      rw [bucket_some, if_pos (by norm_num)]
    simp [deriveCategoryRow, rowPct3333, hcat]
  · decide

/-- C1 (amended): with `Risk_Category` absent and `Risk_Percentile` present,
the derivation applies `bucket` to every row; the effective buckets are
Low = [0, 33.33], Moderate = (33.33, 66.66], High = (66.66, 100] (upper
boundary of each bin inclusive, lowest boundary inclusive as well), so
33.33 lands in "Low" and 0 lands in "Low". -/
theorem c1_bucket_boundaries (t : Table)
    (h1 : t.hasRiskCategory = false) (h2 : t.hasRiskPercentile = true) :
    (deriveCategoryStep t).rows = t.rows.map deriveCategoryRow ∧
    bucket (some (33.33 : ℚ)) = some "Low" ∧
    bucket (some 0) = some "Low" ∧
    (∀ p : ℚ, 0 ≤ p → p ≤ 33.33 → bucket (some p) = some "Low") ∧
    (∀ p : ℚ, 33.33 < p → p ≤ 66.66 → bucket (some p) = some "Moderate") ∧
    (∀ p : ℚ, 66.66 < p → p ≤ 100 → bucket (some p) = some "High") := by
  refine ⟨?_, ?_, ?_, ?_, ?_, ?_⟩
  · unfold deriveCategoryStep
    rw [if_pos ⟨h1, h2⟩]
  · rw [bucket_some, if_pos (by norm_num)]
  · rw [bucket_some, if_pos (by norm_num)]
  · intro p hp0 hp1
    rw [bucket_some, if_pos ⟨hp0, hp1⟩]
  · intro p hp0 hp1
    have hn : ¬ (0 ≤ p ∧ p ≤ 33.33) := fun h => absurd hp0 (not_lt.mpr h.2)
    rw [bucket_some, if_neg hn, if_pos ⟨hp0, hp1⟩]
  · intro p hp0 hp1
    have hn1 : ¬ (0 ≤ p ∧ p ≤ 33.33) := fun h => by
      have : (33.33 : ℚ) < 66.66 := by norm_num
      linarith [h.2]
    have hn2 : ¬ (33.33 < p ∧ p ≤ 66.66) := fun h => absurd hp0 (not_lt.mpr h.2)
    rw [bucket_some, if_neg hn1, if_neg hn2, if_pos ⟨hp0, hp1⟩]

/-- Closed instance of `c1_bucket_boundaries` at the sample table. -/
theorem c1_bucket_boundaries_witness :
    (deriveCategoryStep tPct3333).rows = tPct3333.rows.map deriveCategoryRow ∧
    bucket (some (33.33 : ℚ)) = some "Low" ∧
    bucket (some 0) = some "Low" := by
  have h := c1_bucket_boundaries tPct3333 rfl rfl
  exact ⟨h.1, h.2.1, h.2.2.1⟩

/-! ### C2: responder stats formatting on missing values -/

/-- C2 counterexample: a message naming a county whose `Risk_Rank` cell is
missing makes the responder raise (`int(nan)` → ValueError); nothing is
substituted with "N/A". -/
theorem c2_chatbot_raises_counterexample :
    chatbot [rowNoRank] "bexar" = Except.error "ValueError" := rfl

/-- C2 (amended): the responder's stats formatting raises exactly when
`Risk_Rank` is missing (the only conversion that can fail on a missing
cell is `int(row['Risk_Rank'])`); on other missing numeric fields the
f-string renders the float "nan" — it never substitutes "N/A". -/
theorem c2_statsResponse_error_iff (r : Row) :
    (r.Risk_Rank = none → statsResponse r = Except.error "ValueError") ∧
    (∀ v : ℚ, r.Risk_Rank = some v →
      statsResponse r = Except.ok (statsText r (if 0 ≤ v then ⌊v⌋ else -⌊-v⌋))) ∧
    fmtPlain none = "nan" ∧ fmtComma0 none = "nan" ∧ fmtFloat2 none = "nan" := by
  refine ⟨?_, ?_, rfl, rfl, rfl⟩
  · intro h
    unfold statsResponse
    rw [h]
    rfl
  · intro v h
    unfold statsResponse
    rw [h]
    rfl

/-- Closed instance of `c2_statsResponse_error_iff`. -/
theorem c2_statsResponse_error_iff_witness :
    statsResponse rowNoRank = Except.error "ValueError" ∧
    statsResponse rHarris =
      Except.ok (statsText rHarris (if (0 : ℚ) ≤ 1 then ⌊(1 : ℚ)⌋ else -⌊-(1 : ℚ)⌋)) :=
  ⟨(c2_statsResponse_error_iff rowNoRank).1 rfl,
    (c2_statsResponse_error_iff rHarris).2.1 1 rfl⟩

/-! ### C3: lookup on a miss -/

/-- C3 counterexample: `county_snapshot` on a name absent from the table
raises (`IndexError` from `.iloc[0]`) instead of returning a sentinel. -/
theorem c3_snapshot_miss_raises_counterexample :
    county_snapshot sampleRows "Atlantis" = Except.error "IndexError" := rfl

/-- C3 (amended): `county_snapshot` returns the first matching record when
the name occurs in the table, and raises `IndexError` on a miss — it has no
`NotFound` sentinel (the fixed not-found reply is produced by the chatbot
scan, not by the lookup). -/
theorem c3_snapshot_hit_or_raise (rows : List Row) (name : String) :
    ((∃ r ∈ rows, r.County = name) →
      ∃ r, county_snapshot rows name = Except.ok r ∧ r ∈ rows ∧ r.County = name) ∧
    ((∀ r ∈ rows, r.County ≠ name) →
      county_snapshot rows name = Except.error "IndexError") := by
  constructor
  · rintro ⟨r, hr, hrc⟩
    have hsome : (rows.find? fun r => r.County == name).isSome :=
      List.find?_isSome.mpr ⟨r, hr, by simp [hrc]⟩
    obtain ⟨r', hr'⟩ := Option.isSome_iff_exists.mp hsome
    refine ⟨r', ?_, List.mem_of_find?_eq_some hr', ?_⟩
    · unfold county_snapshot
      rw [hr']
    · have := List.find?_some hr'
      simpa using this
  · intro h
    have hnone : (rows.find? fun r => r.County == name) = none := by
      rw [List.find?_eq_none]
      intro r hr
      simp [h r hr]
    unfold county_snapshot
    rw [hnone]

/-- Closed instance of `c3_snapshot_hit_or_raise`. -/
theorem c3_snapshot_hit_or_raise_witness :
    (∃ r, county_snapshot sampleRows "Harris" = Except.ok r ∧ r ∈ sampleRows ∧
      r.County = "Harris") ∧
    county_snapshot sampleRows "Atlantic" = Except.error "IndexError" :=
  ⟨(c3_snapshot_hit_or_raise sampleRows "Harris").1
      ⟨rHarris, List.mem_cons_of_mem _ (List.mem_cons_self _ _), rfl⟩,
    (c3_snapshot_hit_or_raise sampleRows "Atlantic").2 (by decide)⟩

/-! ### C4: matcher/lookup round trip -/

/-- C4 counterexample: "Anna" is in the index and occurs verbatim in the
text, but the matcher returns the alphabetically earlier county "Ann"
(whose name is a substring of the message through "Anna" itself), so
`lookup(find_county(text))` is a different record than `lookup("Anna")`. -/
theorem c4_roundtrip_counterexample :
    "Anna" ∈ counties annRows ∧
    substrB (pyLower "Anna") (pyLower "tell me about Anna") = true ∧
    find_county_from_text (counties annRows) "tell me about Anna" = some "Ann" ∧
    county_snapshot annRows "Ann" = Except.ok rAnn ∧
    county_snapshot annRows "Anna" = Except.ok rAnna ∧
    rAnn.Diabetes ≠ rAnna.Diabetes :=
  ⟨by decide, by decide, by decide, rfl, rfl, by decide⟩

/-- C4 (amended): the matcher returns the alphabetically first index entry
whose lower-cased name occurs in the lower-cased text; hence
`lookup(find_county(text))` equals `lookup(name)` whenever `name` occurs
verbatim and no index entry alphabetically before `name` also occurs in
the text. -/
theorem c4_find_county_roundtrip (rows : List Row) (name text : String)
    (hmem : name ∈ counties rows)
    (hsub : substrB (pyLower name) (pyLower text) = true)
    (hmin : ∀ c ∈ counties rows, substrB (pyLower c) (pyLower text) = true →
      strLeB name c = true) :
    find_county_from_text (counties rows) text = some name ∧
    ∃ c, find_county_from_text (counties rows) text = some c ∧
      county_snapshot rows c = county_snapshot rows name := by
  have hfind : (counties rows).find? (fun c => substrB (pyLower c) (pyLower text))
      = some name := by
    apply find?_first_of_pairwise (counties rows) (counties_pairwise_lt rows) name hmem hsub
    intro c hc hpc
    exact (strLeB_iff name c).mp (hmin c hc hpc)
  refine ⟨hfind, name, hfind, rfl⟩

/-- Closed instance of `c4_find_county_roundtrip`: the spec's scenario
"How risky is Travis County?". -/
theorem c4_find_county_roundtrip_witness :
    find_county_from_text (counties sampleRows) "How risky is Travis County?" =
      some "Travis" ∧
    ∃ c, find_county_from_text (counties sampleRows) "How risky is Travis County?" =
      some c ∧ county_snapshot sampleRows c = county_snapshot sampleRows "Travis" :=
  c4_find_county_roundtrip sampleRows "Travis" "How risky is Travis County?"
    (by decide) (by decide) (by decide)

/-! ### C5: percentile derivation is rank-monotonic -/

/-- C5: over the non-statewide rows, the derived percentile is the rank
percentile of `Risk_Score`: a strictly larger score gets a `≥` percentile,
equal scores get the same percentile, and statewide rows contribute no
score to the ranking. -/
theorem c5_percentile_rank_monotonic (rows : List Row) (a b : Row)
    (ha : a ∈ rows) (hb : b ∈ rows)
    (hta : isTexas a = false) (htb : isTexas b = false)
    (sa sb : ℚ) (hsa : a.Risk_Score = some sa) (hsb : b.Risk_Score = some sb) :
    (derivePercentileRow (scoresFor rows) a).Risk_Percentile =
      some (rankPct (scoresFor rows) sa * 100) ∧
    (derivePercentileRow (scoresFor rows) b).Risk_Percentile =
      some (rankPct (scoresFor rows) sb * 100) ∧
    (sb < sa →
      rankPct (scoresFor rows) sb * 100 ≤ rankPct (scoresFor rows) sa * 100) ∧
    (sb = sa →
      rankPct (scoresFor rows) sb * 100 = rankPct (scoresFor rows) sa * 100) ∧
    (∀ tr : Row, isTexas tr = true → scoresFor (tr :: rows) = scoresFor rows) := by
  refine ⟨?_, ?_, ?_, ?_, ?_⟩
  · unfold derivePercentileRow
    rw [if_neg (by simp [hta]), hsa]
    rfl
  · unfold derivePercentileRow
    rw [if_neg (by simp [htb]), hsb]
    rfl
  · intro h
    have hm := rankPct_mono (mem_scoresFor hb htb hsb) h
    nlinarith
  · intro h
    rw [h]
  · intro tr htr
    unfold scoresFor
    simp [List.filter_cons, htr]

/-- Closed instance of `c5_percentile_rank_monotonic` on the sample table
(scores 60 < 80). -/
theorem c5_percentile_rank_monotonic_witness :
    rankPct (scoresFor sampleRows) 60 * 100 ≤ rankPct (scoresFor sampleRows) 80 * 100 := by
  have h := c5_percentile_rank_monotonic sampleRows rHarris rTravis
    (List.mem_cons_of_mem _ (List.mem_cons_self _ _))
    (List.mem_cons_of_mem _ (List.mem_cons_of_mem _ (List.mem_cons_self _ _)))
    (by decide) (by decide) 80 60 rfl rfl
  exact h.2.2.1 (by norm_num)

/-! ### C10: derived percentiles lie in (0, 100]; statewide row left blank -/

/-- C10: when `Risk_Percentile` and `Risk_Category` are absent and
`Risk_Score` is present (with a score on every non-statewide row), the
derivation gives every non-statewide row a percentile in (0, 100] — in
particular never 0 — while the statewide row keeps a missing percentile
and therefore also a missing category. -/
theorem c10_percentile_range (t : Table)
    (h1 : t.hasRiskPercentile = false) (h2 : t.hasRiskScore = true)
    (h3 : t.hasRiskCategory = false)
    (hscores : ∀ r ∈ t.rows, isTexas r = false → r.Risk_Score ≠ none) :
    (deriveCategoryStep (derivePercentileStep t)).rows =
      t.rows.map (fun r => deriveCategoryRow (derivePercentileRow (scoresFor t.rows) r)) ∧
    (∀ r ∈ t.rows, isTexas r = false →
      ∃ p, (derivePercentileRow (scoresFor t.rows) r).Risk_Percentile = some p ∧
        0 < p ∧ p ≤ 100) ∧
    (∀ r ∈ t.rows, isTexas r = true →
      (deriveCategoryRow (derivePercentileRow (scoresFor t.rows) r)).Risk_Percentile = none ∧
      (deriveCategoryRow (derivePercentileRow (scoresFor t.rows) r)).Risk_Category = none) := by
  refine ⟨?_, ?_, ?_⟩
  · have hp : derivePercentileStep t =
        { t with rows := t.rows.map (derivePercentileRow (scoresFor t.rows)),
                 hasRiskPercentile := true } := by
      unfold derivePercentileStep
      rw [if_pos ⟨h1, h2⟩]
    rw [hp]
    unfold deriveCategoryStep
    rw [if_pos ⟨h3, rfl⟩]
    simp [List.map_map]
  · intro r hr htex
    rcases hs : r.Risk_Score with _ | s
    · exact absurd hs (hscores r hr htex)
    · have hmem : s ∈ scoresFor t.rows := mem_scoresFor hr htex hs
      refine ⟨rankPct (scoresFor t.rows) s * 100, ?_, ?_, ?_⟩
      · unfold derivePercentileRow
        rw [if_neg (by simp [htex]), hs]
        rfl
      · have := rankPct_pos hmem
        nlinarith
      · have := rankPct_le_one hmem
        nlinarith
  · intro r hr htex
    constructor
    · unfold deriveCategoryRow derivePercentileRow
      rw [if_pos (by simp [htex])]
    · unfold deriveCategoryRow derivePercentileRow
      rw [if_pos (by simp [htex])]
      rfl

/-- The sample table before derivation: percentile/category columns absent,
score column present. -/
def tSample : Table :=
  { rows := sampleRows, hasDiabetes := true, hasRiskScore := true,
    hasRiskPercentile := false, hasRiskCategory := false }

/-- Closed instance of `c10_percentile_range` on the sample table. -/
theorem c10_percentile_range_witness :
    (∃ p, (derivePercentileRow (scoresFor sampleRows) rHarris).Risk_Percentile = some p ∧
      0 < p ∧ p ≤ 100) ∧
    (deriveCategoryRow (derivePercentileRow (scoresFor sampleRows) rTexas)).Risk_Percentile
      = none := by
  have h := c10_percentile_range tSample rfl rfl rfl (by decide)
  exact ⟨h.2.1 rHarris (List.mem_cons_of_mem _ (List.mem_cons_self _ _)) (by decide),
    (h.2.2 rTexas (List.mem_cons_self _ _) (by decide)).1⟩

/-! ### C6: driver sentence -/

/-- Spec-side rule (from the spec wording): obesity ≥ 35 fires. -/
def specObesityRule (row : Row) : Bool :=
  match row.Obesity with
  | some v => decide (35 ≤ v)
  | none => false

/-- Spec-side rule: uninsured ≥ 15 fires. -/
def specUninsuredRule (row : Row) : Bool :=
  match row.Uninsured with
  | some v => decide (15 ≤ v)
  | none => false

/-- Spec-side rule: median income ≤ 60000 fires. -/
def specIncomeRule (row : Row) : Bool :=
  match row.Median_Income with
  | some v => decide (v ≤ 60000)
  | none => false

/-- C6: the drivers the code collects are exactly the three independent
threshold rules in the fixed order obesity, uninsured, income; a missing
field never fires its rule; when at least one rule fires the explanation
contains the comma-joined driver sentence exactly once, and when none
fires it contains no driver sentence at all. -/
theorem c6_driver_sentence (td : Option (Option ℚ)) (row : Row) :
    driversFor row =
      (if specObesityRule row then ["higher obesity"] else []) ++
      (if specUninsuredRule row then ["higher uninsured rate"] else []) ++
      (if specIncomeRule row then ["lower median income"] else []) ∧
    (row.Obesity = none → specObesityRule row = false) ∧
    (row.Uninsured = none → specUninsuredRule row = false) ∧
    (row.Median_Income = none → specIncomeRule row = false) ∧
    (driversFor row ≠ [] →
      (explanationParts td row).count (driverSentence (driversFor row)) = 1) ∧
    (driversFor row = [] →
      ∀ tail, (explanationParts td row).count
        ("Key drivers in this profile include " ++ tail) = 0) := by
  refine ⟨?_, ?_, ?_, ?_, ?_, ?_⟩
  · rcases ho : row.Obesity with _ | vo <;>
      rcases hu : row.Uninsured with _ | vu <;>
      rcases hm : row.Median_Income with _ | vm <;>
      simp only [driversFor, specObesityRule, specUninsuredRule, specIncomeRule,
        ho, hu, hm] <;>
      split_ifs <;> (try simp_all) <;> linarith
  · intro h
    simp [specObesityRule, h]
  · intro h
    simp [specUninsuredRule, h]
  · intro h
    simp [specIncomeRule, h]
  · intro hne
    have hdp : driversPart row = [driverSentence (driversFor row)] := by
      unfold driversPart
      rw [if_neg hne]
    unfold explanationParts
    rw [List.count_append, List.count_append, List.count_append, hdp]
    have hb0 : (benchPart td row).count (driverSentence (driversFor row)) = 0 :=
      count_eq_zero_of_heads (driverSentence_head _)
        (fun s hs => ⟨'T', benchPart_head td row s hs, by decide⟩)
    have hc0 : (catPart row).count (driverSentence (driversFor row)) = 0 :=
      count_eq_zero_of_heads (driverSentence_head _)
        (fun s hs => ⟨'O', catPart_head row s hs, by decide⟩)
    have hp0 : (pm25Part row).count (driverSentence (driversFor row)) = 0 :=
      count_eq_zero_of_heads (driverSentence_head _)
        (fun s hs => ⟨'P', pm25Part_head row s hs, by decide⟩)
    have hd1 : ([driverSentence (driversFor row)]).count (driverSentence (driversFor row))
        = 1 := by simp
    rw [hb0, hc0, hp0, hd1]
  · intro hemp tail
    have hdp : driversPart row = [] := by
      unfold driversPart
      rw [if_pos hemp]
    unfold explanationParts
    rw [List.count_append, List.count_append, List.count_append, hdp]
    have hb0 : (benchPart td row).count ("Key drivers in this profile include " ++ tail)
        = 0 :=
      count_eq_zero_of_heads (key_tail_head tail)
        (fun s hs => ⟨'T', benchPart_head td row s hs, by decide⟩)
    have hc0 : (catPart row).count ("Key drivers in this profile include " ++ tail) = 0 :=
      count_eq_zero_of_heads (key_tail_head tail)
        (fun s hs => ⟨'O', catPart_head row s hs, by decide⟩)
    have hp0 : (pm25Part row).count ("Key drivers in this profile include " ++ tail) = 0 :=
      count_eq_zero_of_heads (key_tail_head tail)
        (fun s hs => ⟨'P', pm25Part_head row s hs, by decide⟩)
    rw [hb0, hc0, hp0]
    rfl

/-- Closed instance of `c6_driver_sentence`: the spec's Harris scenario — all
three drivers fire, in the fixed order, and the sentence appears once. -/
theorem c6_driver_sentence_witness :
    driversFor rHarris = ["higher obesity", "higher uninsured rate", "lower median income"] ∧
    (explanationParts (some (some 11)) rHarris).count (driverSentence (driversFor rHarris))
      = 1 :=
  ⟨by decide, (c6_driver_sentence (some (some 11)) rHarris).2.2.2.2.1 (by decide)⟩

/-! ### C7: benchmark comparison sentence -/

/-- C7: with a present benchmark value `b` and present diabetes value `d`,
the first sentence of the explanation says "above" exactly when `d > b` and
"below" otherwise (equality included), and it embeds the benchmark
formatted to one decimal place. -/
theorem c7_benchmark_above_below (row : Row) (b d : ℚ) (hd : row.Diabetes = some d) :
    (explanationParts (some (some b)) row).head? =
      some (if b < d then benchSentence "above" (some b) else benchSentence "below" (some b)) ∧
    benchSentence "above" (some b) =
      "This county\u2019s diabetes prevalence is **above** the Texas overall value (**" ++
        fmtFixed 1 b ++ "%**)." ∧
    benchSentence "below" (some b) =
      "This county\u2019s diabetes prevalence is **below** the Texas overall value (**" ++
        fmtFixed 1 b ++ "%**)." ∧
    benchSentence "above" (some b) ≠ benchSentence "below" (some b) := by
  refine ⟨?_, ?_, ?_, ?_⟩
  · unfold explanationParts
    rw [benchPart_some b row d hd]
    by_cases hlt : b < d
    · rw [if_pos (by simp [pyGt, hlt]), if_pos hlt]
      rfl
    · rw [if_neg (by simp [pyGt, hlt]), if_neg hlt]
      rfl
  · unfold benchSentence
    rw [show ("This county\u2019s diabetes prevalence is **" ++ "above" ++
        "** the Texas overall value (**" : String) =
        "This county\u2019s diabetes prevalence is **above** the Texas overall value (**"
      from by decide]
    rfl
  · unfold benchSentence
    rw [show ("This county\u2019s diabetes prevalence is **" ++ "below" ++
        "** the Texas overall value (**" : String) =
        "This county\u2019s diabetes prevalence is **below** the Texas overall value (**"
      from by decide]
    rfl
  · intro he
    have hdata := congrArg String.data he
    unfold benchSentence at hdata
    simp only [String.data_append, List.append_assoc] at hdata
    have h1 := List.append_cancel_left hdata
    have h2 := List.append_cancel_right h1
    exact absurd h2 (by decide)

/-- Closed instance of `c7_benchmark_above_below` (benchmark 11, diabetes 14). -/
theorem c7_benchmark_above_below_witness :
    (explanationParts (some (some 11)) rHarris).head? =
      some (if (11 : ℚ) < 14 then benchSentence "above" (some 11)
        else benchSentence "below" (some 11)) :=
  (c7_benchmark_above_below rHarris 11 14 rfl).1

/-! ### C8: county index is sorted, distinct and excludes "Texas" -/

/-- C8: on any input table, the county list is alphabetically sorted, has no
duplicates, contains no entry equal to "Texas" case-insensitively, and each
entry is the trimmed county name of some row. -/
theorem c8_counties_sorted_distinct (rows : List Row) :
    (counties (trimCounties rows)).Sorted (· ≤ ·) ∧
    (counties (trimCounties rows)).Nodup ∧
    (∀ c ∈ counties (trimCounties rows), pyLower c ≠ "texas") ∧
    (∀ c ∈ counties (trimCounties rows), ∃ r ∈ rows, c = pyStrip r.County) := by
  refine ⟨counties_sorted _, counties_nodup _, counties_no_texas _, ?_⟩
  intro c hc
  rcases counties_sub _ c hc with ⟨r', hr', hc'⟩
  unfold trimCounties at hr'
  rcases List.mem_map.mp hr' with ⟨r, hr, hfr⟩
  refine ⟨r, hr, ?_⟩
  rw [← hc', ← hfr]

/-- Closed instance of `c8_counties_sorted_distinct`. -/
theorem c8_counties_sorted_distinct_witness :
    (counties (trimCounties sampleRows)).Nodup ∧ pyLower "Harris" ≠ "texas" :=
  ⟨(c8_counties_sorted_distinct sampleRows).2.1,
    (c8_counties_sorted_distinct sampleRows).2.2.1 "Harris" (by decide)⟩

/-! ### C9: the responder scans the raw table, statewide row included -/

/-- C9: the chatbot scans the rows in table order and does not skip the
statewide row: if the first row whose lower-cased name occurs in the
message is the "texas" row (its rank being present so formatting succeeds),
the chatbot answers with that row's stats — which is not the not-found
reply — while `find_county` can never return a "texas" entry, since the
county index excludes it. -/
theorem c9_chatbot_scans_table_order (rows : List Row) (message : String)
    (i : ℕ) (hi : i < rows.length)
    (htex : pyLower (rows.get ⟨i, hi⟩).County = "texas")
    (hsub : substrB "texas" (pyLower message) = true)
    (hbef : ∀ j (hj : j < rows.length), j < i →
      substrB (pyLower (rows.get ⟨j, hj⟩).County) (pyLower message) = false)
    (v : ℚ) (hrank : (rows.get ⟨i, hi⟩).Risk_Rank = some v) :
    chatbot rows message = statsResponse (rows.get ⟨i, hi⟩) ∧
    (∃ s, statsResponse (rows.get ⟨i, hi⟩) = Except.ok s ∧ s ≠ notFoundText) ∧
    (∀ c, find_county_from_text (counties rows) message = some c → pyLower c ≠ "texas") := by
  have hfind : rows.find? (fun r => substrB (pyLower r.County) (pyLower message)) =
      some (rows.get ⟨i, hi⟩) := by
    apply find?_eq_get_of_first _ rows i hi hbef
    rw [htex]
    exact hsub
  refine ⟨?_, ?_, ?_⟩
  · show (match List.find? (fun r => substrB (pyLower r.County) (pyLower message)) rows with
      | some r => statsResponse r
      | none => Except.ok notFoundText) = statsResponse (rows.get ⟨i, hi⟩)
    rw [hfind]
  · refine ⟨statsText (rows.get ⟨i, hi⟩) (if 0 ≤ v then ⌊v⌋ else -⌊-v⌋), ?_, ?_⟩
    · unfold statsResponse
      rw [hrank]
      rfl
    · exact ne_of_data_head (statsText_head _ _) (show notFoundText.data.head? = some 'I' from rfl)
        (by decide)
  · intro c hc
    unfold find_county_from_text at hc
    exact counties_no_texas rows c (List.mem_of_find?_eq_some hc)

/-- Closed instance of `c9_chatbot_scans_table_order`: the statewide row is
first in the sample table, and the chatbot answers with its stats. -/
theorem c9_chatbot_scans_table_order_witness :
    chatbot sampleRows "texas please" = statsResponse rTexas ∧
    (∃ s, statsResponse rTexas = Except.ok s ∧ s ≠ notFoundText) := by
  have h := c9_chatbot_scans_table_order sampleRows "texas please" 0 (by decide)
    (by decide) (by decide)
    (fun j hj h0 => absurd h0 (Nat.not_lt_zero j)) 0 rfl
  exact ⟨h.1, h.2.1⟩

end App
